import Mathlib

/-!
A verification development for the `ne` offline dictionary store
(`internal/bbolthelper/bbolthelper.go` and its callers).

The Go code is shallowly embedded:

* A Go `map[string]string` value is modelled as `Option Rec`, where
  `Rec := List (String × String)` holds the entries and `none` models the
  nil map (Go distinguishes a nil map from an empty one).
* The gob codec (`Serialize`/`Deserialize`) is modelled as a concrete
  injective length-prefixed encoding with the gob semantics the code relies
  on: a nil map is encoded as an empty map, and decoding a valid encoding
  always yields a non-nil map.
* A bolt bucket is modelled as an association list `Bucket`, in cursor scan
  order; `DBStore.Get`, `DBStore.Put`, `DBStore.FindSimilar` and
  `DBStore.ImportFromCSV` are translated statement by statement, with the
  bolt engine's transaction atomicity (commit succeeds or nothing is
  written) represented by an explicit commit outcome.
* Go `len(s)` is the UTF-8 byte length (`goLen`), while
  `levenshtein.ComputeDistance` works on runes (`lev` on `List Char`);
  the embedding keeps both notions distinct, exactly as the Go code does.
* `sort.Slice` is an unstable sort by the comparator
  `freq_i < freq_j || (freq_i == freq_j && len_i > len_j)`; it is modelled
  by a deterministic insertion sort by the same comparator (any order
  property proved below holds for every sort admissible for `sort.Slice`).
-/

namespace NeSpec

/-- A Go `map[string]string`'s contents: one dictionary record. -/
abbrev Rec := List (String × String)

/-- A Go `map[string]string` variable: `none` is the nil map. -/
abbrev GoMap := Option Rec

/-- Encoding of one string: character count followed by the code points. -/
def encStr (s : String) : List Nat :=
  s.data.length :: s.data.map Char.toNat

/-- `Serialize` (bbolthelper.go): gob-encodes a `map[string]string`.
gob encodes a nil map exactly like an empty map, so the nil case collapses
to `[]` before encoding.  Modelled as entry count followed by the
length-prefixed key/value strings. -/
def Serialize (m : GoMap) : List Nat :=
  let r := m.getD []
  r.length :: r.foldr (fun p acc => encStr p.1 ++ encStr p.2 ++ acc) []

/-- Decode one length-prefixed string, returning the remaining bytes. -/
def decStr : List Nat → Option (String × List Nat)
  | [] => none
  | n :: rest =>
    if n ≤ rest.length then
      some (⟨(rest.take n).map Char.ofNat⟩, rest.drop n)
    else none

/-- Decode `n` key/value pairs. -/
def decPairs : Nat → List Nat → Option (Rec × List Nat)
  | 0, bs => some ([], bs)
  | n + 1, bs => do
    let (k, bs₁) ← decStr bs
    let (v, bs₂) ← decStr bs₁
    let (r, bs₃) ← decPairs n bs₂
    some ((k, v) :: r, bs₃)

/-- `Deserialize` (bbolthelper.go): gob-decodes a byte slice back into a
`map[string]string`.  Fails on bytes that are not a valid encoding; on
success the decoded map is always non-nil (`some _`), as gob's decoder
allocates the map. -/
def Deserialize (bs : List Nat) : Except String GoMap :=
  match bs with
  | [] => .error "failed to deserialize data"
  | n :: rest =>
    match decPairs n rest with
    | some (r, _) => .ok (some r)
    | none => .error "failed to deserialize data"

/-- The body of `Serialize`: the encoded key/value pairs, before the count. -/
def encPairs (r : Rec) : List Nat :=
  r.foldr (fun p acc => encStr p.1 ++ encStr p.2 ++ acc) []

theorem serialize_eq (m : GoMap) :
    Serialize m = (m.getD []).length :: encPairs (m.getD []) := rfl

theorem decStr_encStr (s : String) (bs : List Nat) :
    decStr (encStr s ++ bs) = some (s, bs) := by
  have hlen : s.data.length ≤ (s.data.map Char.toNat ++ bs).length := by simp
  simp only [encStr, List.cons_append, decStr, if_pos hlen]
  rw [(by simp : s.data.length = (s.data.map Char.toNat).length), List.take_left, List.drop_left]
  simp [List.map_map, Function.comp_def, Char.ofNat_toNat]

theorem decPairs_encPairs (r : Rec) (bs : List Nat) :
    decPairs r.length (encPairs r ++ bs) = some (r, bs) := by
  induction r generalizing bs with
  | nil => simp [encPairs, decPairs]
  | cons p r ih =>
    obtain ⟨k, v⟩ := p
    have harr : encPairs ((k, v) :: r) ++ bs = encStr k ++ (encStr v ++ (encPairs r ++ bs)) := by
      simp [encPairs]
    rw [List.length_cons, harr]
    simp [decPairs, decStr_encStr, ih]

/-- Codec round-trip at the gob level: decoding an encoding recovers the map,
with the nil map decoding to the empty (non-nil) map. -/
theorem deserialize_serialize (m : GoMap) :
    Deserialize (Serialize m) = .ok (some (m.getD [])) := by
  have h := decPairs_encPairs (m.getD []) []
  rw [List.append_nil] at h
  simp [Deserialize, serialize_eq, h]

/-! ## Store adapter: bucket, `Get`, `Put` -/

/-- A bolt bucket: key → stored bytes, listed in cursor scan order. -/
abbrev Bucket := List (String × List Nat)

/-- `b.Get([]byte(key))` inside a transaction: `none` models bolt's nil
result for an absent key. -/
def bucketGet (b : Bucket) (k : String) : Option (List Nat) :=
  (b.find? (fun p => p.1 = k)).map (fun p => p.2)

/-- `b.Put([]byte(key), value)`: overwrites the value stored for `key`,
or adds the pair when the key is absent (bolt keeps keys in sorted order;
the position of the new pair is irrelevant to every property below, so the
model appends it). -/
def bucketPut : Bucket → String → List Nat → Bucket
  | [], k, v => [(k, v)]
  | p :: b, k, v => if p.1 = k then (k, v) :: b else p :: bucketPut b k v

/-- `DBStore.Get` (bbolthelper.go): view transaction over an optional
bucket (`none` models a missing bucket).  The Go result triple
`(map[string]string, bool, error)` is collapsed into
`Except String (GoMap × Bool)`: an absent key yields `ok (none, false)`
with no error, a present key is deserialized. -/
def Get (bucket : Option Bucket) (key : String) : Except String (GoMap × Bool) :=
  match bucket with
  | none => .error "bucket not found during Get operation"
  | some b =>
    match bucketGet b key with
    | none => .ok (none, false)
    | some valBytes =>
      match Deserialize valBytes with
      | .error e => .error e
      | .ok m => .ok (m, true)

/-- `DBStore.Put` (bbolthelper.go): serializes the value map and stores it
under `key` verbatim (no key transformation) via `putCore`; fails only if
the bucket is missing. -/
def Put (bucket : Option Bucket) (key : String) (valueMap : GoMap) :
    Except String Bucket :=
  match bucket with
  | none => .error "bucket not found during putCore operation"
  | some b => .ok (bucketPut b key (Serialize valueMap))

theorem bucketGet_cons (p : String × List Nat) (b : Bucket) (k' : String) :
    bucketGet (p :: b) k' = if p.1 = k' then some p.2 else bucketGet b k' := by
  by_cases h : p.1 = k'
  · simp [bucketGet, h]
  · simp [bucketGet, h]

theorem bucketGet_put (b : Bucket) (k k' : String) (v : List Nat) :
    bucketGet (bucketPut b k v) k' = if k' = k then some v else bucketGet b k' := by
  induction b with
  | nil =>
    by_cases h : k' = k
    · simp [bucketPut, bucketGet, h]
    · have h' : ¬ k = k' := fun hkk => h hkk.symm
      simp [bucketPut, bucketGet, h, h']
  | cons p b ih =>
    by_cases hp : p.1 = k
    · simp only [bucketPut, if_pos hp, bucketGet_cons]
      by_cases h : k' = k
      · simp [h]
      · have h' : ¬ k = k' := fun hkk => h hkk.symm
        have hp' : ¬ p.1 = k' := fun hx => h' (hp ▸ hx)
        simp [h, h', hp']
    · simp only [bucketPut, if_neg hp, bucketGet_cons, ih]
      by_cases hpk : p.1 = k'
      · have h : ¬ k' = k := fun hkk => hp (hpk.trans hkk)
        simp [hpk, h]
      · simp [hpk]

/-! ## Claims C3, C7, C1 -/

/-- Claim C3: for every Record `r`, including the empty mapping and the
nil/absent map, `Deserialize (Serialize r)` succeeds and returns a map equal
to `r`; in the empty/absent case the result is the empty non-nil mapping
(`some []`), never the nil value `none`. -/
theorem C3_codec_round_trip (r : GoMap) :
    Deserialize (Serialize r) = .ok (some (r.getD [])) :=
  deserialize_serialize r

/-- Claim C7: `Get` on a key that was never written, with the bucket
present, returns the nil map, `found = false`, and no error. -/
theorem C7_get_exact_miss (b : Bucket) (key : String)
    (habs : bucketGet b key = none) :
    Get (some b) key = .ok (none, false) := by
  simp [Get, habs]

theorem C7_get_exact_miss_witness :
    Get (some [("a", [0])]) "b" = .ok (none, false) :=
  C7_get_exact_miss [("a", [0])] "b" (by decide)

/-- Claim C1 is false on the code: `DBStore.Put` and `DBStore.Get` do not
case-normalize keys, so on an empty bucket, after `Put("Hello", r)` a
`Get("hello")` returns `(nil, false)` rather than `(r, true)`. -/
theorem C1_counterexample :
    Get ((Put (some []) "Hello" (some [("tr", "x")])).toOption) "hello" = .ok (none, false) ∧
    (Except.ok (none, false) : Except String (GoMap × Bool)) ≠ .ok (some [("tr", "x")], true) := by
  refine ⟨rfl, ?_⟩
  simp

/-- Claim C1 (amended): the store interface performs no case normalization;
`Put` stores and `Get` looks up the key verbatim.  After `Put(k, r)`,
`Get(k)` returns `(r, true)`, while for a differently-spelled key `k'`
(such as another casing of `k`) not present in the store, `Get(k')` returns
`(nil, false)`: two differently-cased key inputs resolve to different
entries.  (Case normalization happens in the callers: `ImportFromCSV`
lowercases headwords and the CLI lowercases the query term.) -/
theorem C1_put_get_verbatim (b : Bucket) (r : GoMap) (k k' : String)
    (hne : k' ≠ k) (habs : bucketGet b k' = none) :
    Put (some b) k r = .ok (bucketPut b k (Serialize r)) ∧
    Get (some (bucketPut b k (Serialize r))) k = .ok (some (r.getD []), true) ∧
    Get (some (bucketPut b k (Serialize r))) k' = .ok (none, false) := by
  refine ⟨rfl, ?_, ?_⟩
  · have h := bucketGet_put b k k (Serialize r)
    rw [if_pos rfl] at h
    simp [Get, h, deserialize_serialize]
  · have h := bucketGet_put b k k' (Serialize r)
    rw [if_neg hne] at h
    simp [Get, h, habs]

theorem C1_put_get_verbatim_witness :
    Put (some []) "Hello" (some [("tr", "x")]) =
      .ok (bucketPut [] "Hello" (Serialize (some [("tr", "x")]))) ∧
    Get (some (bucketPut [] "Hello" (Serialize (some [("tr", "x")])))) "Hello" =
      .ok (some [("tr", "x")], true) ∧
    Get (some (bucketPut [] "Hello" (Serialize (some [("tr", "x")])))) "hello" =
      .ok (none, false) :=
  C1_put_get_verbatim [] (some [("tr", "x")]) "Hello" "hello" (by decide) (by decide)

/-! ## Suggestion engine: `FindSimilar` -/

/-- Go `len(s)` for a string: its UTF-8 byte length. -/
def goLen (s : String) : Nat :=
  s.data.foldl (fun n c => n + c.utf8Size) 0

/-- `abs` (bbolthelper.go): absolute value of an integer. -/
def goAbs (x : Int) : Int :=
  if x < 0 then -x else x

/-- One row of the Levenshtein recurrence: given `f = lev xs ·`, computes
`lev (x :: xs) ·` by structural recursion on the second word (this nested
formulation keeps `lev` kernel-computable; `lev_cons_cons` below shows it
satisfies the textbook recurrence). -/
def levCons (x : Char) (f : List Char → Nat) : List Char → Nat
  | [] => f [] + 1
  | y :: ys =>
    if x = y then f ys
    else 1 + min (f (y :: ys)) (min (levCons x f ys) (f ys))

/-- `levenshtein.ComputeDistance` operates on runes: the Levenshtein edit
distance (insert/delete/substitute, unit cost) over the characters. -/
def lev : List Char → List Char → Nat
  | [], ys => ys.length
  | x :: xs, ys => levCons x (lev xs) ys

/-- `levenshtein.ComputeDistance(a, b)` on Go strings. -/
def levS (a b : String) : Nat := lev a.data b.data

theorem lev_nil_left (ys : List Char) : lev [] ys = ys.length := rfl

theorem lev_nil_right (xs : List Char) : lev xs [] = xs.length := by
  induction xs with
  | nil => rfl
  | cons x xs ih => simp [lev, levCons, ih]

/-- `lev` satisfies the textbook Levenshtein recurrence. -/
theorem lev_cons_cons (x : Char) (xs : List Char) (y : Char) (ys : List Char) :
    lev (x :: xs) (y :: ys) =
      if x = y then lev xs ys
      else 1 + min (lev xs (y :: ys)) (min (lev (x :: xs) ys) (lev xs ys)) := by
  simp [lev, levCons]

theorem lev_self (xs : List Char) : lev xs xs = 0 := by
  induction xs with
  | nil => rfl
  | cons x xs ih => simp [lev_cons_cons, ih]

/-- The sign/digits split performed by `strconv.Atoi`. -/
def atoiParse (s : String) : Bool × List Char :=
  match s.data with
  | '-' :: rest => (true, rest)
  | '+' :: rest => (false, rest)
  | l => (false, l)

/-- Is the char an ASCII decimal digit? -/
def isDigitCh (c : Char) : Bool :=
  decide (48 ≤ c.toNat) && decide (c.toNat ≤ 57)

/-- Does `strconv.Atoi` accept the string (optional sign, one or more
digits, nothing else)? -/
def atoiValid (s : String) : Bool :=
  !(atoiParse s).2.isEmpty && (atoiParse s).2.all isDigitCh

/-- The decimal value of a digit string. -/
def digitsVal (ds : List Char) : Nat :=
  ds.foldl (fun n c => 10 * n + (c.toNat - 48)) 0

/-- `strconv.Atoi` as used at `freq, _ := strconv.Atoi(freqStr)`: a
syntactically invalid string yields 0 (the error is discarded); an
out-of-range value is clamped to the int64 bounds (`ParseInt` returns the
nearest representable value alongside the discarded range error). -/
def goAtoi (s : String) : Int :=
  if atoiValid s then
    let v : Int := (digitsVal (atoiParse s).2 : Int)
    let sv := if (atoiParse s).1 then -v else v
    if sv > 2 ^ 63 - 1 then 2 ^ 63 - 1
    else if sv < -(2 ^ 63) then -(2 ^ 63)
    else sv
  else 0

theorem goAtoi_invalid {s : String} (h : atoiValid s = false) : goAtoi s = 0 := by
  simp [goAtoi, h]

/-- Go map indexing `m["frq"]`: the zero value `""` when the key is absent
or the map is nil. -/
def goMapGet (m : GoMap) (k : String) : String :=
  ((m.getD []).lookup k).getD ""

/-- The frequency rank extracted from a deserialized record, as in the
`suggestion` construction: `freq, _ := strconv.Atoi(valueMap["frq"])`. -/
def suggFreq (m : GoMap) : Int :=
  goAtoi (goMapGet m "frq")

/-- The `suggestion` struct local to `FindSimilar`. -/
structure Suggestion where
  word : String
  freq : Int
  len : Nat
deriving DecidableEq, Repr

/-- The suggestion appended for key `k` with deserialized record `m`. -/
def mkSugg (k : String) (m : GoMap) : Suggestion :=
  ⟨k, suggFreq m, goLen k⟩

/-- The length-pruning test: `abs(len(dbWord)-inputLen) > maxDistance`.
Note it compares UTF-8 byte lengths, while the edit distance is computed
over runes. -/
def pruned (word k : String) (maxD : Int) : Bool :=
  decide (goAbs ((goLen k : Int) - (goLen word : Int)) > maxD)

/-- A stored pair survives the scan's pruning, distance and
deserialization checks and is turned into a suggestion. -/
def qualifies (word : String) (maxD : Int) (kv : String × List Nat) : Bool :=
  !pruned word kv.1 maxD
    && decide (0 < levS word kv.1)
    && decide ((levS word kv.1 : Int) ≤ maxD)
    && (Deserialize kv.2).toBool

/-- The suggestion a qualifying pair contributes. -/
def toSugg (kv : String × List Nat) : Suggestion :=
  mkSugg kv.1 ((Deserialize kv.2).toOption.getD none)

/-- The cursor loop of `FindSimilar`: walk the pairs in scan order,
breaking once more than 10 suggestions have been accumulated, skipping
pruned keys, keys at distance 0 or beyond `maxDistance`, and keys whose
value fails to deserialize. -/
def scanAux (word : String) (maxD : Int) :
    List (String × List Nat) → List Suggestion → List Suggestion
  | [], acc => acc
  | (k, v) :: rest, acc =>
    if acc.length > 10 then acc
    else if pruned word k maxD then scanAux word maxD rest acc
    else if 0 < levS word k ∧ (levS word k : Int) ≤ maxD then
      match Deserialize v with
      | .error _ => scanAux word maxD rest acc
      | .ok m => scanAux word maxD rest (acc ++ [mkSugg k m])
    else scanAux word maxD rest acc

/-- The suggestions accumulated by the scan, starting from the empty
slice. -/
def scanCandidates (b : Bucket) (word : String) (maxD : Int) : List Suggestion :=
  scanAux word maxD b []

/-- The `sort.Slice` comparator, as a total preorder: `a` may precede `b`
iff `less(b, a)` is false, where
`less(i, j) = freq_i < freq_j || (freq_i == freq_j && len_i > len_j)`. -/
def suggLE (a b : Suggestion) : Bool :=
  if a.freq = b.freq then decide (b.len ≤ a.len) else decide (a.freq < b.freq)

/-- Insertion by `suggLE`. -/
def insertSugg (s : Suggestion) : List Suggestion → List Suggestion
  | [] => [s]
  | t :: ts => if suggLE s t then s :: t :: ts else t :: insertSugg s ts

/-- `sort.Slice(suggestions, less)`: modelled as insertion sort by the same
comparator (`sort.Slice` is unstable, so any order consistent with the
comparator is admissible; every property proved below is
comparator-level). -/
def sortSuggs : List Suggestion → List Suggestion
  | [] => []
  | s :: ss => insertSugg s (sortSuggs ss)

/-- The suggestions after ranking. -/
def rankedSuggestions (b : Bucket) (word : String) (maxD : Int) : List Suggestion :=
  sortSuggs (scanCandidates b word maxD)

/-- `DBStore.FindSimilar` (bbolthelper.go): scan, sort, truncate to 3,
return the words. -/
def FindSimilar (bucket : Option Bucket) (word : String) (maxD : Int) :
    Except String (List String) :=
  match bucket with
  | none => .error "bucket not found during FindSimilar operation"
  | some b =>
    let suggestions := rankedSuggestions b word maxD
    let truncated := if suggestions.length > 3 then suggestions.take 3 else suggestions
    .ok (truncated.map (fun s => s.word))

theorem scanAux_eq (word : String) (maxD : Int) (l : List (String × List Nat)) :
    ∀ acc : List Suggestion, acc.length ≤ 11 →
      scanAux word maxD l acc =
        acc ++ ((l.filter (qualifies word maxD)).take (11 - acc.length)).map toSugg := by
  induction l with
  | nil => intro acc _; simp [scanAux]
  | cons kv rest ih =>
    intro acc hacc
    obtain ⟨k, v⟩ := kv
    by_cases hlen : acc.length > 10
    · have h11 : acc.length = 11 := by omega
      simp [scanAux, hlen, h11]
    · simp only [scanAux, if_neg hlen]
      by_cases hpr : pruned word k maxD
      · have hq : qualifies word maxD (k, v) = false := by simp [qualifies, hpr]
        rw [if_pos hpr, ih acc hacc]
        simp [List.filter_cons, hq]
      · rw [if_neg hpr]
        by_cases hdist : 0 < levS word k ∧ (levS word k : Int) ≤ maxD
        · rw [if_pos hdist]
          cases hD : Deserialize v with
          | error e =>
            have hq : qualifies word maxD (k, v) = false := by
              simp [qualifies, hD, Except.toBool]
            rw [ih acc hacc]
            simp [List.filter_cons, hq]
          | ok m =>
            have hq : qualifies word maxD (k, v) = true := by
              simp [qualifies, hpr, hdist.1, hdist.2, hD, Except.toBool]
            have hlen' : (acc ++ [mkSugg k m]).length ≤ 11 := by
              simp only [List.length_append, List.length_cons, List.length_nil]
              omega
            show scanAux word maxD rest (acc ++ [mkSugg k m]) = _
            rw [ih _ hlen']
            have hts : toSugg (k, v) = mkSugg k m := by
              simp [toSugg, hD, Except.toOption]
            have h11 : 11 - acc.length = (10 - acc.length) + 1 := by omega
            have h10 : 11 - (acc ++ [mkSugg k m]).length = 10 - acc.length := by
              simp only [List.length_append, List.length_cons, List.length_nil]
              omega
            rw [List.filter_cons_of_pos hq, h11, h10, List.take_succ_cons]
            simp [hts]
        · rw [if_neg hdist]
          have hq : qualifies word maxD (k, v) = false := by
            rcases not_and_or.mp hdist with h | h <;> simp [qualifies, h]
          rw [ih acc hacc]
          simp [List.filter_cons, hq]

theorem scanCandidates_eq (b : Bucket) (word : String) (maxD : Int) :
    scanCandidates b word maxD = ((b.filter (qualifies word maxD)).take 11).map toSugg := by
  have h := scanAux_eq word maxD b [] (by simp)
  simpa [scanCandidates] using h

theorem suggLE_total (a b : Suggestion) : suggLE a b = true ∨ suggLE b a = true := by
  unfold suggLE
  by_cases h : a.freq = b.freq
  · have h' : b.freq = a.freq := h.symm
    simp only [if_pos h, if_pos h', decide_eq_true_eq]
    omega
  · have h' : ¬ b.freq = a.freq := fun e => h e.symm
    simp only [if_neg h, if_neg h', decide_eq_true_eq]
    omega

theorem suggLE_trans {a b c : Suggestion}
    (h₁ : suggLE a b = true) (h₂ : suggLE b c = true) : suggLE a c = true := by
  unfold suggLE at h₁ h₂ ⊢
  split at h₁ <;> split at h₂ <;> split <;> simp_all <;> omega

/-- The ranking order of the comparator passed to `sort.Slice`: ascending
frequency value first, then descending key length among equal
frequencies. -/
def SuggOrder (a b : Suggestion) : Prop :=
  a.freq < b.freq ∨ (a.freq = b.freq ∧ b.len ≤ a.len)

theorem suggLE_iff (a b : Suggestion) : suggLE a b = true ↔ SuggOrder a b := by
  unfold suggLE SuggOrder
  by_cases h : a.freq = b.freq <;> simp [h]

theorem mem_insertSugg {x s : Suggestion} {l : List Suggestion} :
    x ∈ insertSugg s l ↔ x = s ∨ x ∈ l := by
  induction l with
  | nil => simp [insertSugg]
  | cons t ts ih =>
    by_cases h : suggLE s t
    · simp [insertSugg, h]
      try tauto
    · simp [insertSugg, h, ih]
      try tauto

theorem length_insertSugg (s : Suggestion) (l : List Suggestion) :
    (insertSugg s l).length = l.length + 1 := by
  induction l with
  | nil => simp [insertSugg]
  | cons t ts ih =>
    by_cases h : suggLE s t <;> simp [insertSugg, h, ih]

theorem length_sortSuggs (l : List Suggestion) : (sortSuggs l).length = l.length := by
  induction l with
  | nil => simp [sortSuggs]
  | cons s ss ih => simp [sortSuggs, length_insertSugg, ih]

theorem mem_sortSuggs {x : Suggestion} {l : List Suggestion} :
    x ∈ sortSuggs l ↔ x ∈ l := by
  induction l with
  | nil => simp [sortSuggs]
  | cons s ss ih => simp [sortSuggs, mem_insertSugg, ih]

theorem pairwise_insertSugg {s : Suggestion} {l : List Suggestion}
    (h : List.Pairwise (fun a b => suggLE a b = true) l) :
    List.Pairwise (fun a b => suggLE a b = true) (insertSugg s l) := by
  induction l with
  | nil => simp [insertSugg]
  | cons t ts ih =>
    rcases List.pairwise_cons.mp h with ⟨ht, hts⟩
    by_cases hst : suggLE s t
    · rw [insertSugg, if_pos hst]
      refine List.Pairwise.cons ?_ h
      intro x hx
      rcases List.mem_cons.mp hx with rfl | hx
      · exact hst
      · exact suggLE_trans hst (ht x hx)
    · rw [insertSugg, if_neg hst]
      refine List.Pairwise.cons ?_ (ih hts)
      intro x hx
      rcases mem_insertSugg.mp hx with rfl | hx
      · rcases suggLE_total t x with h' | h'
        · exact h'
        · exact absurd h' hst
      · exact ht x hx

theorem pairwise_sortSuggs (l : List Suggestion) :
    List.Pairwise (fun a b => suggLE a b = true) (sortSuggs l) := by
  induction l with
  | nil => simp [sortSuggs]
  | cons s ss ih => exact pairwise_insertSugg ih

theorem pairwise_rankedSuggestions (b : Bucket) (word : String) (maxD : Int) :
    List.Pairwise SuggOrder (rankedSuggestions b word maxD) :=
  (pairwise_sortSuggs _).imp (fun h => (suggLE_iff _ _).mp h)

theorem qualifies_dist {word : String} {maxD : Int} {kv : String × List Nat}
    (h : qualifies word maxD kv = true) :
    0 < levS word kv.1 ∧ (levS word kv.1 : Int) ≤ maxD := by
  simp only [qualifies, Bool.and_eq_true, decide_eq_true_eq] at h
  exact ⟨h.1.1.2, h.1.2⟩

theorem mem_scanCandidates {b : Bucket} {word : String} {maxD : Int} {s : Suggestion}
    (h : s ∈ scanCandidates b word maxD) :
    ∃ kv ∈ b, qualifies word maxD kv = true ∧ s = toSugg kv := by
  rw [scanCandidates_eq] at h
  rcases List.mem_map.mp h with ⟨kv, hkv, rfl⟩
  rcases List.mem_filter.mp (List.take_subset _ _ hkv) with ⟨hb, hq⟩
  exact ⟨kv, hb, hq, rfl⟩

/-- The list of words `FindSimilar` returns on a present bucket. -/
theorem findSimilar_some (b : Bucket) (word : String) (maxD : Int) :
    FindSimilar (some b) word maxD =
      .ok ((if (rankedSuggestions b word maxD).length > 3
        then (rankedSuggestions b word maxD).take 3
        else rankedSuggestions b word maxD).map (fun s => s.word)) := rfl

theorem mem_findSimilar {b : Bucket} {word : String} {maxD : Int} {l : List String} {k : String}
    (h : FindSimilar (some b) word maxD = .ok l) (hk : k ∈ l) :
    ∃ kv ∈ b, qualifies word maxD kv = true ∧ k = kv.1 := by
  rw [findSimilar_some, Except.ok.injEq] at h
  subst h
  rcases List.mem_map.mp hk with ⟨s, hs, rfl⟩
  have hs' : s ∈ rankedSuggestions b word maxD := by
    by_cases h3 : (rankedSuggestions b word maxD).length > 3
    · rw [if_pos h3] at hs
      exact List.take_subset _ _ hs
    · rw [if_neg h3] at hs
      exact hs
  rcases mem_scanCandidates (mem_sortSuggs.mp hs') with ⟨kv, hb, hq, rfl⟩
  exact ⟨kv, hb, hq, rfl⟩

/-! ## Claims C4, C10, C2 -/

/-- Claim C4: a stored key is returned by `FindSimilar` only if its rune
Levenshtein distance `d` to the query satisfies `0 < d ≤ maxDistance`; in
particular the query term itself (distance 0) never appears in the
returned list, for every store content and every `maxDistance`.
Conversely, at the qualification step itself (a candidate that survives
pruning and deserializes), the key is returned iff `0 < d ≤ maxDistance`,
shown on a one-entry store. -/
theorem C4_exact_match_excluded :
    (∀ (b : Bucket) (word : String) (maxD : Int) (l : List String),
      FindSimilar (some b) word maxD = .ok l →
      (∀ k ∈ l, 0 < levS word k ∧ (levS word k : Int) ≤ maxD) ∧ word ∉ l) ∧
    (∀ (k : String) (v : List Nat) (word : String) (maxD : Int) (m : GoMap),
      pruned word k maxD = false → Deserialize v = .ok m →
      FindSimilar (some [(k, v)]) word maxD =
        .ok (if 0 < levS word k ∧ (levS word k : Int) ≤ maxD then [k] else [])) := by
  constructor
  · intro b word maxD l h
    constructor
    · intro k hk
      rcases mem_findSimilar h hk with ⟨kv, _, hq, rfl⟩
      exact qualifies_dist hq
    · intro hw
      rcases mem_findSimilar h hw with ⟨kv, _, hq, hkv⟩
      have hd := (qualifies_dist hq).1
      rw [← hkv] at hd
      simp [levS, lev_self] at hd
  · intro k v word maxD m hpr hD
    have hq : qualifies word maxD (k, v) =
        decide (0 < levS word k ∧ (levS word k : Int) ≤ maxD) := by
      simp [qualifies, hpr, hD, Except.toBool, Bool.decide_and]
    rw [findSimilar_some]
    by_cases hd : 0 < levS word k ∧ (levS word k : Int) ≤ maxD
    · have hq' : qualifies word maxD (k, v) = true := by
        rw [hq]
        exact decide_eq_true hd
      rw [if_pos hd]
      rw [rankedSuggestions, scanCandidates_eq, List.filter_cons_of_pos hq', List.filter_nil]
      simp [sortSuggs, insertSugg, toSugg, mkSugg]
    · have hq' : qualifies word maxD (k, v) = false := by
        rw [hq]
        simpa using hd
      rw [if_neg hd]
      rw [rankedSuggestions, scanCandidates_eq, List.filter_cons_of_neg (by simp [hq']),
        List.filter_nil]
      simp [sortSuggs]

theorem C4_exact_match_excluded_witness :
    ((∀ k ∈ ["ab"], 0 < levS "aa" k ∧ (levS "aa" k : Int) ≤ 1) ∧ "aa" ∉ ["ab"]) ∧
    FindSimilar (some [("ab", Serialize (some []))]) "aa" 1 =
      .ok (if 0 < levS "aa" "ab" ∧ (levS "aa" "ab" : Int) ≤ 1 then ["ab"] else []) :=
  ⟨C4_exact_match_excluded.1 [("ab", Serialize (some []))] "aa" 1 ["ab"] rfl,
   C4_exact_match_excluded.2 "ab" (Serialize (some [])) "aa" 1 (some [])
     (by decide) (deserialize_serialize (some []))⟩

/-- Claim C10: with a present bucket, `FindSimilar` with
`maxDistance ≤ 0` returns the empty list and no error: no candidate can
satisfy `0 < dist ≤ maxDistance`. -/
theorem C10_nonpositive_maxDistance (b : Bucket) (word : String) (maxD : Int)
    (h : maxD ≤ 0) :
    FindSimilar (some b) word maxD = .ok [] := by
  have hq : ∀ kv, qualifies word maxD kv = false := by
    intro kv
    by_cases hz : 0 < levS word kv.1
    · have : ¬ ((levS word kv.1 : Int) ≤ maxD) := by
        have : (1 : Int) ≤ (levS word kv.1 : Int) := by exact_mod_cast hz
        omega
      simp [qualifies, this]
    · simp [qualifies, hz]
  have hfilter : b.filter (qualifies word maxD) = [] := by
    rw [List.filter_eq_nil_iff]
    intro kv _
    simp [hq kv]
  rw [findSimilar_some]
  rw [rankedSuggestions, scanCandidates_eq, hfilter]
  simp [sortSuggs]

theorem C10_nonpositive_maxDistance_witness :
    FindSimilar (some [("ab", Serialize (some []))]) "aa" 0 = .ok [] :=
  C10_nonpositive_maxDistance [("ab", Serialize (some []))] "aa" 0 (by decide)

/-- Claim C2 fails on the code: the length pruning compares UTF-8 byte
lengths while the edit distance is computed over runes, so a true
qualifying match can be discarded by the pruning step alone.  With the
store containing only the key `"x"` and query term `"日"` (one rune, three
bytes) at `maxDistance = 1`, the candidate `"x"` has rune edit distance 1
(so `0 < dist ≤ maxDistance` holds), yet the byte-length difference is 2,
the pruning test fires, and `FindSimilar` returns no suggestions. -/
theorem C2_pruning_drops_true_match :
    FindSimilar (some [("x", Serialize (some []))]) "日" 1 = .ok [] ∧
    pruned "日" "x" 1 = true ∧
    0 < levS "日" "x" ∧ (levS "日" "x" : Int) ≤ 1 := by
  refine ⟨rfl, rfl, by decide, by decide⟩

/-! ## Claims C5, C6 -/

/-- Claim C5: the ranked suggestion list is ordered by ascending frequency
value first, with descending key length as the tie-break among equal
frequencies, and `FindSimilar` returns the first (at most) 3 words of that
ranking; a qualifying candidate whose `frq` field is missing or not a
numeric literal is kept with rank-value 0 rather than dropped (shown on a
one-entry store: the scan still produces its suggestion, with frequency
0). -/
theorem C5_suggestion_ranking :
    (∀ (b : Bucket) (word : String) (maxD : Int),
      List.Pairwise SuggOrder (rankedSuggestions b word maxD) ∧
      FindSimilar (some b) word maxD =
        .ok (((rankedSuggestions b word maxD).take 3).map (fun s => s.word))) ∧
    (∀ (k word : String) (r : Rec) (maxD : Int),
      atoiValid (goMapGet (some r) "frq") = false →
      qualifies word maxD (k, Serialize (some r)) = true →
      scanCandidates [(k, Serialize (some r))] word maxD = [⟨k, 0, goLen k⟩]) := by
  constructor
  · intro b word maxD
    refine ⟨pairwise_rankedSuggestions b word maxD, ?_⟩
    rw [findSimilar_some]
    by_cases h3 : (rankedSuggestions b word maxD).length > 3
    · rw [if_pos h3]
    · rw [if_neg h3, List.take_of_length_le (by omega)]
  · intro k word r maxD hfrq hq
    rw [scanCandidates_eq]
    rw [List.filter_cons_of_pos hq, List.filter_nil]
    have hts : toSugg (k, Serialize (some r)) = ⟨k, 0, goLen k⟩ := by
      simp only [toSugg, deserialize_serialize, Except.toOption, Option.getD_some,
        Option.getD, mkSugg, suggFreq]
      rw [goAtoi_invalid hfrq]
    simp [hts]

theorem C5_suggestion_ranking_witness :
    List.Pairwise SuggOrder (rankedSuggestions [("ab", Serialize (some []))] "aa" 1) ∧
    scanCandidates [("ab", Serialize (some []))] "aa" 1 = [⟨"ab", 0, 2⟩] :=
  ⟨(C5_suggestion_ranking.1 [("ab", Serialize (some []))] "aa" 1).1,
   C5_suggestion_ranking.2 "ab" "aa" [] 1 (by decide) (by decide)⟩

/-- Claim C6: `FindSimilar` returns at most 3 keys; when at least 4 stored
pairs qualify, it returns exactly 3 keys, each the key of a qualifying
stored pair, and the returned list is the word projection of the first 3
ranked suggestions (which are ranked pairwise). -/
theorem C6_suggestion_cap (b : Bucket) (word : String) (maxD : Int) (l : List String)
    (h : FindSimilar (some b) word maxD = .ok l) :
    l.length ≤ 3 ∧
    (4 ≤ (b.filter (qualifies word maxD)).length →
      l.length = 3 ∧
      (∀ k ∈ l, ∃ kv ∈ b, qualifies word maxD kv = true ∧ k = kv.1) ∧
      l = ((rankedSuggestions b word maxD).take 3).map (fun s => s.word) ∧
      List.Pairwise SuggOrder ((rankedSuggestions b word maxD).take 3)) := by
  have hmem : ∀ k ∈ l, ∃ kv ∈ b, qualifies word maxD kv = true ∧ k = kv.1 :=
    fun k hk => mem_findSimilar h hk
  have hRlen : (rankedSuggestions b word maxD).length =
      min 11 (b.filter (qualifies word maxD)).length := by
    rw [rankedSuggestions, length_sortSuggs, scanCandidates_eq,
      List.length_map, List.length_take]
  rw [findSimilar_some, Except.ok.injEq] at h
  subst h
  constructor
  · by_cases h3 : (rankedSuggestions b word maxD).length > 3
    · rw [if_pos h3]
      simp only [List.length_map, List.length_take]
      omega
    · rw [if_neg h3]
      simp only [List.length_map]
      omega
  · intro h4
    have hR4 : 4 ≤ (rankedSuggestions b word maxD).length := by
      rw [hRlen]
      exact le_min (by norm_num) h4
    have h3 : (rankedSuggestions b word maxD).length > 3 := by omega
    rw [if_pos h3] at hmem ⊢
    refine ⟨?_, hmem, rfl, ?_⟩
    · simp only [List.length_map, List.length_take]
      omega
    · exact List.Pairwise.sublist (List.take_sublist 3 _)
        (pairwise_rankedSuggestions b word maxD)

/-- The four-candidate store from the repository's `FindSimilar` test. -/
def catStore : Bucket :=
  [("bat", Serialize (some [("frq", "50")])),
   ("cat", Serialize (some [("frq", "50")])),
   ("mat", Serialize (some [("frq", "50")])),
   ("rat", Serialize (some [("frq", "50")]))]

theorem C6_suggestion_cap_witness :
    4 ≤ (catStore.filter (qualifies "dat" 1)).length ∧
    (["bat", "cat", "mat"] : List String).length = 3 ∧
    (∀ k ∈ (["bat", "cat", "mat"] : List String),
      ∃ kv ∈ catStore, qualifies "dat" 1 kv = true ∧ k = kv.1) :=
  have h := C6_suggestion_cap catStore "dat" 1 ["bat", "cat", "mat"] rfl
  ⟨by decide, (h.2 (by decide)).1, (h.2 (by decide)).2.1⟩

/-! ## Bulk loader: `ImportFromCSV` -/

/-- `strings.ToLower`, rune by rune (the model lowercases the ASCII range,
which is what the dictionary headwords exercise). -/
def goToLower (s : String) : String :=
  ⟨s.data.map Char.toLower⟩

/-- The record built from one data row: for `1 ≤ i < len(record)` with
`i < len(header)`, the field `header[i]` is set to `record[i]` (extra
columns beyond the header are ignored, short rows populate only the
columns present). -/
def rowToRecord (header record : List String) : Rec :=
  (header.zip record).drop 1

/-- One iteration of the import loop, threading (bucket, recordsProcessed):
a row whose read failed is skipped (warned, not fatal), an empty row is
skipped, otherwise the headword is lowercased, the record is built,
serialized and written, and the counter is incremented. -/
def importRow (header : List String) (st : Bucket × Nat)
    (row : Except String (List String)) : Bucket × Nat :=
  match row with
  | .error _ => st
  | .ok record =>
    if record.length < 1 then st
    else
      (bucketPut st.1 (goToLower (record.headD ""))
        (Serialize (some (rowToRecord header record))), st.2 + 1)

/-- `DBStore.ImportFromCSV` (bbolthelper.go).  The CSV reader is modelled
as a stream of row results (`[]` is EOF, `.error` a row read failure); the
first element is the header read.  All writes happen inside a single
`db.Update` transaction, whose engine-level outcome is `commitOk`: on
failure nothing is committed (the visible bucket is unchanged) and the
error is surfaced.  Returns the result and the visible bucket. -/
def ImportFromCSV (commitOk : Bool) (bucket : Option Bucket)
    (csv : List (Except String (List String))) : Except String Nat × Option Bucket :=
  match csv with
  | [] => (.error "CSV file is empty or has no header", bucket)
  | headerRes :: rows =>
    match headerRes with
    | .error _ => (.error "failed to read header from CSV", bucket)
    | .ok header =>
      if header.length < 1 then
        (.error "CSV header is invalid (too few columns)", bucket)
      else
        match bucket with
        | none =>
          (.error "failed during bbolt transaction for CSV import: bucket unexpectedly not found",
            bucket)
        | some b =>
          let st := rows.foldl (importRow header) (b, 0)
          if commitOk then (.ok st.2, some st.1)
          else (.error "failed during bbolt transaction for CSV import", bucket)

/-- A data row that gets written: it parsed and has at least one column. -/
def writtenRow (row : Except String (List String)) : Bool :=
  match row with
  | .ok record => decide (1 ≤ record.length)
  | .error _ => false

theorem importRow_count (header : List String)
    (rows : List (Except String (List String))) :
    ∀ (b : Bucket) (n : Nat),
      (rows.foldl (importRow header) (b, n)).2 = n + rows.countP writtenRow := by
  induction rows with
  | nil => intro b n; simp
  | cons row rest ih =>
    intro b n
    rw [List.foldl_cons, List.countP_cons]
    cases row with
    | error e =>
      have h1 : importRow header (b, n) (.error e) = (b, n) := rfl
      rw [h1, ih]
      simp [writtenRow]
    | ok record =>
      by_cases hlen : record.length < 1
      · have h1 : importRow header (b, n) (.ok record) = (b, n) := by
          simp [importRow, hlen]
        have hw : writtenRow (.ok record) = false := by
          simp only [writtenRow, decide_eq_false_iff_not]
          omega
        rw [h1, ih, hw]
        simp
      · have h1 : importRow header (b, n) (.ok record) =
            (bucketPut b (goToLower (record.headD ""))
              (Serialize (some (rowToRecord header record))), n + 1) := by
          simp [importRow, hlen]
        have hw : writtenRow (.ok record) = true := by
          simp only [writtenRow, decide_eq_true_eq]
          omega
        rw [h1, ih, hw]
        simp
        omega

/-- Claim C8: (i) a data row whose read fails is skipped and does not
change the outcome of the surrounding single transaction; (ii) an
engine-level transaction failure aborts the whole load with an error and
no partial commit (the visible bucket is exactly the original one);
(iii) on successful completion the function returns exactly the count of
rows that were written. -/
theorem C8_bulk_load_contract :
    (∀ (commitOk : Bool) (b : Bucket) (header : List String)
        (rows₁ rows₂ : List (Except String (List String))) (e : String),
      ImportFromCSV commitOk (some b) (.ok header :: (rows₁ ++ .error e :: rows₂)) =
        ImportFromCSV commitOk (some b) (.ok header :: (rows₁ ++ rows₂))) ∧
    (∀ (bucket : Option Bucket) (csv : List (Except String (List String))),
      (ImportFromCSV false bucket csv).2 = bucket ∧
      ∃ msg, (ImportFromCSV false bucket csv).1 = .error msg) ∧
    (∀ (b : Bucket) (header : List String) (rows : List (Except String (List String))),
      1 ≤ header.length →
      (ImportFromCSV true (some b) (.ok header :: rows)).1 = .ok (rows.countP writtenRow)) := by
  refine ⟨?_, ?_, ?_⟩
  · intro commitOk b header rows₁ rows₂ e
    have hfold : ∀ st : Bucket × Nat,
        (rows₁ ++ .error e :: rows₂).foldl (importRow header) st =
          (rows₁ ++ rows₂).foldl (importRow header) st := by
      intro st
      rw [List.foldl_append, List.foldl_append, List.foldl_cons]
      rfl
    simp only [ImportFromCSV, hfold]
  · intro bucket csv
    have h2 : (ImportFromCSV false bucket csv).2 = bucket := by
      match csv with
      | [] => rfl
      | .error e :: rows => rfl
      | .ok header :: rows =>
        by_cases hh : header.length < 1
        · simp [ImportFromCSV, hh]
        · match bucket with
          | none => simp [ImportFromCSV, hh]
          | some b => simp [ImportFromCSV, hh]
    have h1 : ∃ msg, (ImportFromCSV false bucket csv).1 = .error msg := by
      match csv with
      | [] => exact ⟨_, rfl⟩
      | .error e :: rows => exact ⟨_, rfl⟩
      | .ok header :: rows =>
        by_cases hh : header.length < 1
        · exact ⟨"CSV header is invalid (too few columns)", by simp [ImportFromCSV, hh]⟩
        · match bucket with
          | none =>
            exact ⟨"failed during bbolt transaction for CSV import: bucket unexpectedly not found",
              by simp [ImportFromCSV, hh]⟩
          | some b =>
            exact ⟨"failed during bbolt transaction for CSV import",
              by simp [ImportFromCSV, hh]⟩
    exact ⟨h2, h1⟩
  · intro b header rows hh
    have hh' : ¬ header.length < 1 := by omega
    simp only [ImportFromCSV, if_neg hh', if_true]
    rw [importRow_count header rows b 0]
    simp

theorem C8_bulk_load_contract_witness :
    (ImportFromCSV true (some []) [.ok ["word", "frq"], .ok ["A", "1"], .error "bad"] =
      ImportFromCSV true (some []) [.ok ["word", "frq"], .ok ["A", "1"]]) ∧
    (ImportFromCSV false (some []) [.ok ["word", "frq"], .ok ["A", "1"]]).2 = some [] ∧
    (ImportFromCSV true (some [])
      [.ok ["word", "frq"], .ok ["A", "1"], .error "bad"]).1 = .ok 1 :=
  ⟨C8_bulk_load_contract.1 true [] ["word", "frq"] [.ok ["A", "1"]] [] "bad",
   (C8_bulk_load_contract.2.1 (some []) [.ok ["word", "frq"], .ok ["A", "1"]]).1,
   C8_bulk_load_contract.2.2 [] ["word", "frq"] [.ok ["A", "1"], .error "bad"] (by decide)⟩

/-! ## Compactor: `Compact` and `Close` -/

/-- The `DBStore` handle state: `dbOpen` models `s.db != nil`. -/
structure Handle where
  dbOpen : Bool
deriving DecidableEq, Repr

/-- Outcomes of the external (file-system / engine) steps of `Compact`. -/
structure CompactEnv where
  closeErr : Bool
  openROErr : Bool
  openTmpErr : Bool
  copyErr : Bool
  closeTmpErr : Bool
  removeErr : Bool
  renameErr : Bool
deriving DecidableEq, Repr

/-- `DBStore.Compact` (bbolthelper.go): refuses to run on a closed handle;
otherwise it closes the current instance and sets `s.db = nil` before any
later step, so whatever happens afterwards (modelled by `env`) the handle
stays closed. -/
def Compact (s : Handle) (env : CompactEnv) : Except String Unit × Handle :=
  if s.dbOpen = false then
    (.error "cannot compact a closed or uninitialized DBStore", s)
  else
    let s' : Handle := ⟨false⟩
    if env.closeErr then
      (.error "failed to close current database instance before compaction", s')
    else if env.openROErr then
      (.error "failed to open original DB as read-only for compaction", s')
    else if env.openTmpErr then
      (.error "failed to open temp DB for compaction", s')
    else if env.copyErr then
      (.error "failed to copy data during compaction", s')
    else if env.closeTmpErr then
      (.error "failed to close temp DB after copy", s')
    else if env.removeErr then
      (.error "failed to remove original DB to replace with compacted version", s')
    else if env.renameErr then
      (.error "failed to rename temp DB to original path", s')
    else (.ok (), s')

/-- `DBStore.Close` (bbolthelper.go): a nil `s.db` is a no-op returning no
error; otherwise the underlying close result (`closeErr`) is returned and
the handle field is left as is. -/
def Close (s : Handle) (closeErr : Bool) : Except String Unit × Handle :=
  if s.dbOpen = false then (.ok (), s)
  else ((if closeErr then .error "close failed" else .ok ()), s)

theorem compact_closes (s : Handle) (env : CompactEnv) (hopen : s.dbOpen = true) :
    (Compact s env).2 = ⟨false⟩ := by
  simp only [Compact, hopen]
  rw [if_neg (by simp)]
  split_ifs <;> rfl

/-- Claim C9: after `Compact` returns on an open handle — whether it
succeeds or fails at any point after the initial close — the handle is
marked closed; a subsequent `Compact` on the same `DBStore` returns an
error (and changes nothing), and a subsequent `Close` is a no-op returning
no error. -/
theorem C9_compact_invalidates_handle (s : Handle) (env : CompactEnv)
    (hopen : s.dbOpen = true) :
    (Compact s env).2.dbOpen = false ∧
    (∀ env' : CompactEnv, Compact (Compact s env).2 env' =
      (.error "cannot compact a closed or uninitialized DBStore", (Compact s env).2)) ∧
    (∀ ce : Bool, Close (Compact s env).2 ce = (.ok (), (Compact s env).2)) := by
  rw [compact_closes s env hopen]
  exact ⟨rfl, fun env' => rfl, fun ce => rfl⟩

theorem C9_compact_invalidates_handle_witness :
    (Compact ⟨true⟩ ⟨false, false, false, false, false, false, false⟩).2.dbOpen = false ∧
    (∀ env' : CompactEnv,
      Compact (Compact ⟨true⟩ ⟨false, false, false, false, false, false, false⟩).2 env' =
        (.error "cannot compact a closed or uninitialized DBStore",
          (Compact ⟨true⟩ ⟨false, false, false, false, false, false, false⟩).2)) ∧
    (∀ ce : Bool,
      Close (Compact ⟨true⟩ ⟨false, false, false, false, false, false, false⟩).2 ce =
        (.ok (), (Compact ⟨true⟩ ⟨false, false, false, false, false, false, false⟩).2)) :=
  C9_compact_invalidates_handle ⟨true⟩ ⟨false, false, false, false, false, false, false⟩ rfl

end NeSpec
